import Mathlib

/-!
Verification of the scoring engine in `ld_logic.py` (NeuroScreen).

The five evaluators and the bounded edit-distance comparator are embedded
shallowly: Python strings become `String` (compared through their `List Char`
data), Python lists become `List`, in-place loop accumulation becomes `foldl`,
and `sum(1 for ... if ...)` becomes `countP`.  Normalization (`.strip().lower()`)
is modelled over ASCII, which covers every string the scoring engine actually
compares.
-/

/-- Python `str.strip()` whitespace set (ASCII part). -/
def pyIsSpace (c : Char) : Bool :=
  c = ' ' ∨ c = '\t' ∨ c = '\n' ∨ c = '\r' ∨ c = '\x0b' ∨ c = '\x0c'

/-- Python `str.strip()`: drop leading and trailing whitespace. -/
def pyStrip (l : List Char) : List Char :=
  ((l.dropWhile pyIsSpace).reverse.dropWhile pyIsSpace).reverse

/-- Python `str.lower()` on one character (ASCII range). -/
def pyLowerChar (c : Char) : Char :=
  if 'A' ≤ c ∧ c ≤ 'Z' then Char.ofNat (c.toNat + 32) else c

/-- `(s or '').strip().lower()`, as a character list. -/
def pyNorm (s : String) : List Char :=
  (pyStrip s.data).map pyLowerChar

/-- Inner layer of the two-pointer loop: the first string's unread suffix is
`x :: xs` (fixed head `x`), `f` resumes the loop on the suffix `xs`, and the
argument list is the second string's unread suffix.  Structured this way the
recursion is structural, so the kernel can evaluate it. -/
def edLInner (x : Char) (sameLen aLonger : Bool) (f : Nat → List Char → Bool) :
    Nat → List Char → Bool
  | diff, [] => decide (diff + 1 ≤ 1)
  | diff, y :: ys =>
    if x = y then f diff ys
    else if diff = 1 then false
    else if sameLen then f 1 ys
    else if aLonger then f 1 (y :: ys)
    else edLInner x sameLen aLonger f 1 ys

/-- Outer layer: recursion on the first string's unread suffix. -/
def edLoopA (sameLen aLonger : Bool) : List Char → Nat → List Char → Bool
  | [] => fun diff ys =>
    match ys with
    | [] => decide (diff ≤ 1)
    | _ :: _ => decide (diff + 1 ≤ 1)
  | x :: xs => edLInner x sameLen aLonger (edLoopA sameLen aLonger xs)

/-- The `while i < la and j < lb` loop of `_edits_leq_one`, including the
trailing-character accounting and the final `diff <= 1` test.  The flags
`sameLen` / `aLonger` record the comparisons `la == lb` / `la > lb` of the
original lengths, which the Python loop body reads unchanged on every
iteration.  The defining equations of the Python loop are proved below as
`edLoop_nil_nil`, `edLoop_nil_cons`, `edLoop_cons_nil`, `edLoop_cons_cons`. -/
def edLoop (sameLen aLonger : Bool) (diff : Nat) (a b : List Char) : Bool :=
  edLoopA sameLen aLonger a diff b

/-- Body of `_edits_leq_one` after normalization: the equality fast path, the
`abs(la - lb) > 1` rejection, then the greedy two-pointer scan. -/
def editsCore (a b : List Char) : Bool :=
  if a = b then true
  else if a.length + 1 < b.length ∨ b.length + 1 < a.length then false
  else edLoop (decide (a.length = b.length)) (decide (b.length < a.length)) 0 a b

/-- `_edits_leq_one(a, b)` from `ld_logic.py`. -/
def _edits_leq_one (a b : String) : Bool :=
  editsCore (pyNorm a) (pyNorm b)

/-- Inner layer of the Levenshtein recursion: `fxs` is the distance function
for the first list's tail `xs`, the argument is the second list; written so
the recursion is structural and kernel-evaluable. -/
def levInner (x : Char) (fxs : List Char → Nat) : List Char → Nat
  | [] => fxs [] + 1
  | y :: ys =>
    if x = y then fxs ys
    else 1 + min (min (fxs (y :: ys)) (levInner x fxs ys)) (fxs ys)

/-- Textbook Levenshtein (DP) edit distance, the reference the spec measures
the greedy comparator against.  Its textbook defining equations are proved
below as `lev_nil_left`, `lev_nil_right` and `lev_cons_cons`. -/
def lev : List Char → List Char → Nat
  | [] => fun ys => ys.length
  | x :: xs => levInner x (lev xs)

/-! ### The five evaluators -/

structure DyslexiaResult where
  type : String
  score : Nat
  flag : Bool
  message : String

/-- `evaluate_dyslexia(answers)`: count exact (case-sensitive) matches against
the fixed key `['b','b','a','a','b']`. -/
def evaluate_dyslexia (answers : List String) : DyslexiaResult :=
  let correct := ["b", "b", "a", "a", "b"]
  let score := (answers.zip correct).countP fun p => p.1 == p.2
  { type := "Dyslexia"
    score := score
    flag := decide (score < 3)
    message := if score < 3 then "Possible signs of dyslexia" else "No major signs detected." }

structure DyscalculiaResult where
  type : String
  score : Nat
  flag : Bool
  message : String

/-- `evaluate_dyscalculia(answers, targets)`: normalized exact match per index
of `targets`, with the fixed `score < 3` flag threshold. -/
def evaluate_dyscalculia (answers targets : List String) : DyscalculiaResult :=
  let total := targets.length
  let score := (List.range total).foldl
    (fun s i =>
      let a := answers.getD i ""
      let t := targets.getD i ""
      if pyNorm a = pyNorm t then s + 1 else s) 0
  let flag := decide (score < 3)
  { type := "Dyscalculia"
    score := score
    flag := flag
    message :=
      if flag then "Consider practicing phonics and spelling patterns"
      else "Spelling patterns appear within typical range." }

structure MemoryResult where
  type : String
  score : Nat
  total : Nat
  flag : Bool
  message : String

/-- `evaluate_memory(recall_list, target_list)`: per-index fuzzy match through
`_edits_leq_one`, flag when below `total // 2`. -/
def evaluate_memory (recall_list target_list : List String) : MemoryResult :=
  let total := target_list.length
  let correct := (List.range total).foldl
    (fun s idx =>
      let target := target_list.getD idx ""
      let ans := recall_list.getD idx ""
      if _edits_leq_one ans target then s + 1 else s) 0
  let threshold := if total > 0 then total / 2 else 0
  let flag := decide (correct < threshold)
  { type := "Working Memory"
    score := correct
    total := total
    flag := flag
    message :=
      if flag then "Possible working memory challenges"
      else "Working memory within typical range." }

/-- Digit-string parse used to model Python `int(str)`. -/
def pyDigits (l : List Char) : Option Nat :=
  if l = [] then none
  else if l.all Char.isDigit then
    some (l.foldl (fun n c => 10 * n + (c.toNat - 48)) 0)
  else none

/-- Python `int(s)` on a string: strip whitespace, optional sign, decimal
digits; `none` models the `ValueError` caught by the caller. -/
def pyIntOfString (s : String) : Option Int :=
  match pyStrip s.data with
  | '+' :: rest => (pyDigits rest).map Int.ofNat
  | '-' :: rest => (pyDigits rest).map fun n => -(n : Int)
  | l => (pyDigits l).map Int.ofNat

/-- The tier chosen for item `i`: `int(level_list[i])` when present and
parsable, clamped to the key set `{1, 2, 3}` with default 1. -/
def phonLevel (level_list : List String) (i : Nat) : Nat :=
  let lvl : Int :=
    if i < level_list.length then
      match pyIntOfString (level_list.getD i "") with
      | some v => v
      | none => 1
    else 1
  if lvl = 1 ∨ lvl = 2 ∨ lvl = 3 then lvl.toNat else 1

/-- The two per-level dicts `per_level_total` / `per_level_correct`. -/
structure PhonCounts where
  t1 : Nat
  t2 : Nat
  t3 : Nat
  c1 : Nat
  c2 : Nat
  c3 : Nat

def bumpTotal (st : PhonCounts) (lvl : Nat) : PhonCounts :=
  if lvl = 1 then { st with t1 := st.t1 + 1 }
  else if lvl = 2 then { st with t2 := st.t2 + 1 }
  else { st with t3 := st.t3 + 1 }

def bumpCorrect (st : PhonCounts) (lvl : Nat) : PhonCounts :=
  if lvl = 1 then { st with c1 := st.c1 + 1 }
  else if lvl = 2 then { st with c2 := st.c2 + 1 }
  else { st with c3 := st.c3 + 1 }

/-- The item-`i` comparison `student == target` of `evaluate_phonetics`
(both sides trimmed and lowercased). -/
def phonMatch (spell_list target_list : List String) (i : Nat) : Bool :=
  pyNorm (spell_list.getD i "") == pyNorm (target_list.getD i "")

/-- One iteration of the `for i in range(n)` loop of `evaluate_phonetics`. -/
def phonStep (spell_list target_list level_list : List String)
    (st : PhonCounts) (i : Nat) : PhonCounts :=
  let lvl := phonLevel level_list i
  let st := bumpTotal st lvl
  if phonMatch spell_list target_list i then bumpCorrect st lvl else st

structure LevelStat where
  correct : Nat
  total : Nat

structure LevelBreakdown where
  level1 : LevelStat
  level2 : LevelStat
  level3 : LevelStat

structure PhoneticsResult where
  type : String
  score : Nat
  total : Nat
  flag : Bool
  message : String
  level_breakdown : LevelBreakdown

/-- `evaluate_phonetics(spell_list, target_list, level_list)`. -/
def evaluate_phonetics (spell_list target_list level_list : List String) :
    PhoneticsResult :=
  let n := min target_list.length spell_list.length
  let total := n
  let st := (List.range n).foldl (phonStep spell_list target_list level_list)
    { t1 := 0, t2 := 0, t3 := 0, c1 := 0, c2 := 0, c3 := 0 }
  let score := st.c1 + st.c2 + st.c3
  let message :=
    s!"Phonetic spelling overview — Level 1: {st.c1}/{st.t1}, Level 2: {st.c2}/{st.t2}, Level 3: {st.c3}/{st.t3}. This activity explores how sounds connect to English spelling patterns."
  let threshold := if total > 0 then total / 2 else 0
  { type := "Phonetics"
    score := score
    total := total
    flag := decide (score < threshold)
    message := message
    level_breakdown :=
      { level1 := { correct := st.c1, total := st.t1 }
        level2 := { correct := st.c2, total := st.t2 }
        level3 := { correct := st.c3, total := st.t3 } } }

/-- The per-level state after the whole `evaluate_phonetics` loop. -/
def phonState (spell target levels : List String) : PhonCounts :=
  List.foldl (phonStep spell target levels) ⟨0, 0, 0, 0, 0, 0⟩
    (List.range (min target.length spell.length))

structure LegacyMcqResult where
  type : String
  score : Nat
  total : Nat
  flag : Bool
  message : String

/-- `evaluate_phonetics_legacy_mcq(answers)`: normalized match against the
fixed key `['c','b','a','a','b']`. -/
def evaluate_phonetics_legacy_mcq (answers : List String) : LegacyMcqResult :=
  let correct_key := ["c", "b", "a", "a", "b"]
  let score := (answers.zip correct_key).countP fun p => pyNorm p.1 == p.2.data
  let total := correct_key.length
  { type := "Phonetics"
    score := score
    total := total
    flag := decide (score < 3)
    message := "Legacy phonetic items scored. For the new phonetic spelling, responses are typed words with increasing complexity across three levels." }

/-! ### Defining equations of the loop and of `lev` -/

theorem edLoop_nil_nil (s l : Bool) (d : Nat) : edLoop s l d [] [] = decide (d ≤ 1) := rfl

theorem edLoop_nil_cons (s l : Bool) (d : Nat) (y : Char) (ys : List Char) :
    edLoop s l d [] (y :: ys) = decide (d + 1 ≤ 1) := rfl

theorem edLoop_cons_nil (s l : Bool) (d : Nat) (x : Char) (xs : List Char) :
    edLoop s l d (x :: xs) [] = decide (d + 1 ≤ 1) := rfl

theorem edLoop_cons_cons (s l : Bool) (d : Nat) (x y : Char) (xs ys : List Char) :
    edLoop s l d (x :: xs) (y :: ys) =
      if x = y then edLoop s l d xs ys
      else if d = 1 then false
      else if s then edLoop s l 1 xs ys
      else if l then edLoop s l 1 xs (y :: ys)
      else edLoop s l 1 (x :: xs) ys := rfl

theorem lev_nil_left (b : List Char) : lev [] b = b.length := rfl

theorem lev_nil_right : ∀ a : List Char, lev a [] = a.length
  | [] => rfl
  | x :: xs => by
    show lev xs [] + 1 = xs.length + 1
    rw [lev_nil_right xs]

theorem lev_cons_cons (x y : Char) (xs ys : List Char) :
    lev (x :: xs) (y :: ys) =
      if x = y then lev xs ys
      else 1 + min (min (lev xs (y :: ys)) (lev (x :: xs) ys)) (lev xs ys) := rfl

/-! ### Facts about `lev` -/

theorem lev_self : ∀ a : List Char, lev a a = 0
  | [] => rfl
  | x :: xs => by rw [lev_cons_cons, if_pos rfl, lev_self xs]

theorem lev_eq_zero : ∀ a b : List Char, lev a b = 0 ↔ a = b
  | [], b => by simp [lev_nil_left, List.length_eq_zero, eq_comm]
  | x :: xs, [] => by simp [lev_nil_right]
  | x :: xs, y :: ys => by
    rw [lev_cons_cons]
    by_cases h : x = y
    · subst h
      rw [if_pos rfl, lev_eq_zero xs ys]
      simp
    · rw [if_neg h]
      simp [h]

theorem lev_comm : ∀ a b : List Char, lev a b = lev b a
  | [], b => by rw [lev_nil_left, lev_nil_right]
  | x :: xs, [] => by rw [lev_nil_left, lev_nil_right]
  | x :: xs, y :: ys => by
    rw [lev_cons_cons, lev_cons_cons]
    by_cases h : x = y
    · subst h
      rw [if_pos rfl, if_pos rfl, lev_comm xs ys]
    · rw [if_neg h, if_neg fun hyx => h hyx.symm,
        lev_comm xs (y :: ys), lev_comm (x :: xs) ys, lev_comm xs ys]
      omega
termination_by a b => a.length + b.length

/-- `lev` dominates the length difference (both truncated directions). -/
theorem lev_length_le : ∀ a b : List Char,
    a.length ≤ lev a b + b.length ∧ b.length ≤ lev a b + a.length
  | [], b => by simp [lev_nil_left]
  | x :: xs, [] => by simp [lev_nil_right]
  | x :: xs, y :: ys => by
    rw [lev_cons_cons]
    by_cases h : x = y
    · rw [if_pos h]
      have := lev_length_le xs ys
      simp only [List.length_cons]
      omega
    · rw [if_neg h]
      have h1 := lev_length_le xs (y :: ys)
      have h2 := lev_length_le (x :: xs) ys
      have h3 := lev_length_le xs ys
      simp only [List.length_cons] at h1 h2 h3 ⊢
      omega
termination_by a b => a.length + b.length

/-- On a head mismatch, `lev ≤ 1` forces one of the three sub-problems to be
an exact equality. -/
theorem lev_le_one_of_ne {x y : Char} (xs ys : List Char) (h : x ≠ y) :
    lev (x :: xs) (y :: ys) ≤ 1 ↔ (xs = y :: ys ∨ x :: xs = ys ∨ xs = ys) := by
  rw [lev_cons_cons, if_neg h]
  rw [show ∀ m : Nat, 1 + m ≤ 1 ↔ m = 0 from fun m => by omega]
  rw [Nat.min_eq_zero_iff, Nat.min_eq_zero_iff, lev_eq_zero, lev_eq_zero, lev_eq_zero, or_assoc]

/-! ### The loop after one consumed edit, and the three main cases -/

/-- After the edit budget is spent (`diff = 1`), the loop on equal-length
suffixes just tests equality. -/
theorem edLoop_one_eq (s l : Bool) (u : List Char) :
    ∀ v : List Char, u.length = v.length → edLoop s l 1 u v = decide (u = v) := by
  induction u with
  | nil =>
    intro v hv
    cases v with
    | nil => rfl
    | cons y ys => simp at hv
  | cons x xs ih =>
    intro v hv
    cases v with
    | nil => simp at hv
    | cons y ys =>
      rw [edLoop_cons_cons]
      by_cases h : x = y
      · subst h
        rw [if_pos rfl, ih ys (by simpa using hv)]
        exact decide_eq_decide.mpr (by simp)
      · rw [if_neg h, if_pos rfl]
        exact (decide_eq_false (by simp [h])).symm

theorem edLoop_eq_lev_same : ∀ a b : List Char, a.length = b.length →
    edLoop true false 0 a b = decide (lev a b ≤ 1)
  | [], b, hv => by
    cases b with
    | nil => rfl
    | cons y ys => simp at hv
  | x :: xs, b, hv => by
    cases b with
    | nil => simp at hv
    | cons y ys =>
      have hlen : xs.length = ys.length := by simpa using hv
      rw [edLoop_cons_cons]
      by_cases h : x = y
      · subst h
        rw [if_pos rfl, edLoop_eq_lev_same xs ys hlen]
        refine decide_eq_decide.mpr ?_
        rw [lev_cons_cons, if_pos rfl]
      · rw [if_neg h, if_neg (by omega : ¬(0 : Nat) = 1), if_pos rfl,
          edLoop_one_eq true false xs ys hlen]
        refine decide_eq_decide.mpr ?_
        rw [lev_le_one_of_ne xs ys h]
        constructor
        · intro he
          exact Or.inr (Or.inr he)
        · rintro (he | he | he)
          · exact absurd (congrArg List.length he) (by simp [hlen])
          · exact absurd (congrArg List.length he) (by simp [hlen])
          · exact he

theorem edLoop_eq_lev_gt : ∀ a b : List Char, a.length = b.length + 1 →
    edLoop false true 0 a b = decide (lev a b ≤ 1)
  | [], b, hv => by simp only [List.length_nil] at hv; omega
  | x :: xs, b, hv => by
    cases b with
    | nil =>
      have hxs : xs = [] := by
        simp only [List.length_cons, List.length_nil] at hv
        exact List.length_eq_zero.mp (by omega)
      subst hxs
      rw [edLoop_cons_nil]
      refine decide_eq_decide.mpr ?_
      rw [lev_nil_right]
      simp
    | cons y ys =>
      have hlen : xs.length = ys.length + 1 := by
        simp only [List.length_cons] at hv
        omega
      rw [edLoop_cons_cons]
      by_cases h : x = y
      · subst h
        rw [if_pos rfl, edLoop_eq_lev_gt xs ys hlen]
        refine decide_eq_decide.mpr ?_
        rw [lev_cons_cons, if_pos rfl]
      · rw [if_neg h, if_neg (by omega : ¬(0 : Nat) = 1), if_neg (by simp), if_pos rfl,
          edLoop_one_eq false true xs (y :: ys) (by simpa using hlen)]
        refine decide_eq_decide.mpr ?_
        rw [lev_le_one_of_ne xs ys h]
        constructor
        · intro he
          exact Or.inl he
        · rintro (he | he | he)
          · exact he
          · exact absurd (congrArg List.length he) (by simp [hlen]; omega)
          · exact absurd (congrArg List.length he) (by simp [hlen])

theorem edLoop_eq_lev_lt : ∀ a b : List Char, b.length = a.length + 1 →
    edLoop false false 0 a b = decide (lev a b ≤ 1)
  | a, [], hv => by simp only [List.length_nil] at hv; omega
  | [], y :: ys, hv => by
    rw [edLoop_nil_cons]
    refine decide_eq_decide.mpr ?_
    rw [lev_nil_left]
    simp only [List.length_nil] at hv
    simp [hv]
  | x :: xs, y :: ys, hv => by
    have hlen : ys.length = xs.length + 1 := by
      simp only [List.length_cons] at hv
      omega
    rw [edLoop_cons_cons]
    by_cases h : x = y
    · subst h
      rw [if_pos rfl, edLoop_eq_lev_lt xs ys hlen]
      refine decide_eq_decide.mpr ?_
      rw [lev_cons_cons, if_pos rfl]
    · rw [if_neg h, if_neg (by omega : ¬(0 : Nat) = 1), if_neg (by simp), if_neg (by simp),
        edLoop_one_eq false false (x :: xs) ys (by simpa using hlen.symm)]
      refine decide_eq_decide.mpr ?_
      rw [lev_le_one_of_ne xs ys h]
      constructor
      · intro he
        exact Or.inr (Or.inl he)
      · rintro (he | he | he)
        · exact absurd (congrArg List.length he) (by simp [hlen]; omega)
        · exact he
        · exact absurd (congrArg List.length he) (by simp [hlen])

/-- The greedy two-pointer comparator decides exactly the predicate
"textbook Levenshtein distance at most 1". -/
theorem editsCore_eq_levLeOne (a b : List Char) : editsCore a b = decide (lev a b ≤ 1) := by
  unfold editsCore
  by_cases hab : a = b
  · subst hab
    rw [if_pos rfl]
    exact (decide_eq_true (by rw [lev_self]; omega)).symm
  · rw [if_neg hab]
    by_cases hl : a.length + 1 < b.length ∨ b.length + 1 < a.length
    · rw [if_pos hl]
      have hb := lev_length_le a b
      exact (decide_eq_false (by omega)).symm
    · rw [if_neg hl]
      push_neg at hl
      rcases Nat.lt_trichotomy a.length b.length with h | h | h
      · have hbl : b.length = a.length + 1 := by omega
        rw [decide_eq_false (by omega : ¬a.length = b.length),
          decide_eq_false (by omega : ¬b.length < a.length)]
        exact edLoop_eq_lev_lt a b hbl
      · rw [decide_eq_true h, decide_eq_false (by omega : ¬b.length < a.length)]
        exact edLoop_eq_lev_same a b h
      · have hal : a.length = b.length + 1 := by omega
        rw [decide_eq_false (by omega : ¬a.length = b.length), decide_eq_true h]
        exact edLoop_eq_lev_gt a b hal

/-- `_edits_leq_one` on strings, characterized through `lev` of the
normalized character lists. -/
theorem edits_leq_one_eq_levLeOne (a b : String) :
    _edits_leq_one a b = decide (lev (pyNorm a) (pyNorm b) ≤ 1) :=
  editsCore_eq_levLeOne _ _

/-! ### Counting helpers for the evaluator loops -/

theorem foldl_count {α : Type} (p : α → Prop) [DecidablePred p] :
    ∀ (l : List α) (s0 : Nat),
      List.foldl (fun s i => if p i then s + 1 else s) s0 l
        = s0 + List.countP (fun i => decide (p i)) l
  | [], s0 => by simp
  | a :: t, s0 => by
    simp only [List.foldl_cons]
    by_cases h : p a <;> simp [h, foldl_count p t, List.countP_cons] <;> omega

theorem foldl_count_bool {α : Type} (p : α → Bool) :
    ∀ (l : List α) (s0 : Nat),
      List.foldl (fun s i => if p i then s + 1 else s) s0 l = s0 + List.countP p l
  | [], s0 => by simp
  | a :: t, s0 => by
    simp only [List.foldl_cons]
    by_cases h : p a <;> simp [h, foldl_count_bool p t, List.countP_cons] <;> omega

theorem halfIte (n : Nat) : (if n > 0 then n / 2 else 0) = n / 2 := by
  cases n <;> simp

/-! ### Field characterizations of the evaluators -/

theorem dyslexia_score_eq (answers : List String) :
    (evaluate_dyslexia answers).score
      = List.countP (fun p => p.1 == p.2) (answers.zip ["b", "b", "a", "a", "b"]) := rfl

theorem dyslexia_flag_eq (answers : List String) :
    (evaluate_dyslexia answers).flag = decide ((evaluate_dyslexia answers).score < 3) := rfl

theorem dyscalculia_score_eq (answers targets : List String) :
    (evaluate_dyscalculia answers targets).score
      = List.countP (fun i => decide (pyNorm (answers.getD i "") = pyNorm (targets.getD i "")))
          (List.range targets.length) := by
  simp only [evaluate_dyscalculia]
  rw [foldl_count fun i => pyNorm (answers.getD i "") = pyNorm (targets.getD i "")]
  exact Nat.zero_add _

theorem dyscalculia_flag_eq (answers targets : List String) :
    (evaluate_dyscalculia answers targets).flag
      = decide ((evaluate_dyscalculia answers targets).score < 3) := rfl

theorem memory_score_eq (recall_list target_list : List String) :
    (evaluate_memory recall_list target_list).score
      = List.countP
          (fun idx => _edits_leq_one (recall_list.getD idx "") (target_list.getD idx ""))
          (List.range target_list.length) := by
  simp only [evaluate_memory]
  rw [foldl_count_bool
    fun idx => _edits_leq_one (recall_list.getD idx "") (target_list.getD idx "")]
  exact Nat.zero_add _

theorem memory_total_eq (recall_list target_list : List String) :
    (evaluate_memory recall_list target_list).total = target_list.length := rfl

theorem memory_flag_eq (recall_list target_list : List String) :
    (evaluate_memory recall_list target_list).flag
      = decide ((evaluate_memory recall_list target_list).score < target_list.length / 2) := by
  simp only [evaluate_memory]
  rw [halfIte]

theorem legacy_score_eq (answers : List String) :
    (evaluate_phonetics_legacy_mcq answers).score
      = List.countP (fun p => pyNorm p.1 == p.2.data)
          (answers.zip ["c", "b", "a", "a", "b"]) := rfl

theorem legacy_total_eq (answers : List String) :
    (evaluate_phonetics_legacy_mcq answers).total = 5 := rfl

theorem legacy_flag_eq (answers : List String) :
    (evaluate_phonetics_legacy_mcq answers).flag
      = decide ((evaluate_phonetics_legacy_mcq answers).score < 3) := rfl

theorem legacy_message_eq (answers : List String) :
    (evaluate_phonetics_legacy_mcq answers).message
      = "Legacy phonetic items scored. For the new phonetic spelling, responses are typed words with increasing complexity across three levels." := rfl

/-! ### The leveled-phonetics loop invariant -/

theorem phonLevel_cases (levels : List String) (i : Nat) :
    phonLevel levels i = 1 ∨ phonLevel levels i = 2 ∨ phonLevel levels i = 3 := by
  have key : ∀ lvl : Int,
      (if lvl = 1 ∨ lvl = 2 ∨ lvl = 3 then lvl.toNat else 1) = 1 ∨
      (if lvl = 1 ∨ lvl = 2 ∨ lvl = 3 then lvl.toNat else 1) = 2 ∨
      (if lvl = 1 ∨ lvl = 2 ∨ lvl = 3 then lvl.toNat else 1) = 3 := by
    intro lvl
    split_ifs with h
    · rcases h with h | h | h <;> simp [h]
    · exact Or.inl rfl
  exact key _

theorem phonFold (spell target levels : List String) :
    ∀ (l : List Nat) (st : PhonCounts),
      (List.foldl (phonStep spell target levels) st l).t1
          = st.t1 + List.countP (fun i => phonLevel levels i == 1) l
        ∧ (List.foldl (phonStep spell target levels) st l).t2
          = st.t2 + List.countP (fun i => phonLevel levels i == 2) l
        ∧ (List.foldl (phonStep spell target levels) st l).t3
          = st.t3 + List.countP (fun i => phonLevel levels i == 3) l
        ∧ (List.foldl (phonStep spell target levels) st l).c1
          = st.c1 + List.countP (fun i => phonLevel levels i == 1 && phonMatch spell target i) l
        ∧ (List.foldl (phonStep spell target levels) st l).c2
          = st.c2 + List.countP (fun i => phonLevel levels i == 2 && phonMatch spell target i) l
        ∧ (List.foldl (phonStep spell target levels) st l).c3
          = st.c3 + List.countP (fun i => phonLevel levels i == 3 && phonMatch spell target i) l
  | [], st => by simp
  | a :: t, st => by
    simp only [List.foldl_cons]
    have ih := phonFold spell target levels t (phonStep spell target levels st a)
    rcases phonLevel_cases levels a with h | h | h <;>
      by_cases hm : phonMatch spell target a <;>
      simp [phonStep, bumpTotal, bumpCorrect, h, hm, List.countP_cons] at ih ⊢ <;>
      omega

theorem phonCountLevels (levels : List String) : ∀ l : List Nat,
    List.countP (fun i => phonLevel levels i == 1) l
      + List.countP (fun i => phonLevel levels i == 2) l
      + List.countP (fun i => phonLevel levels i == 3) l = l.length
  | [] => by simp
  | a :: t => by
    have ih := phonCountLevels levels t
    rcases phonLevel_cases levels a with h | h | h <;>
      simp [List.countP_cons, h] <;> omega

theorem phonCountMatch (spell target levels : List String) : ∀ l : List Nat,
    List.countP (fun i => phonLevel levels i == 1 && phonMatch spell target i) l
      + List.countP (fun i => phonLevel levels i == 2 && phonMatch spell target i) l
      + List.countP (fun i => phonLevel levels i == 3 && phonMatch spell target i) l
      = List.countP (fun i => phonMatch spell target i) l
  | [] => by simp
  | a :: t => by
    have ih := phonCountMatch spell target levels t
    rcases phonLevel_cases levels a with h | h | h <;>
      by_cases hm : phonMatch spell target a <;>
      simp [List.countP_cons, h, hm] <;> omega

theorem countP_and_le {α : Type} (p q : α → Bool) : ∀ l : List α,
    List.countP (fun i => p i && q i) l ≤ List.countP p l
  | [] => by simp
  | a :: t => by
    have ih := countP_and_le p q t
    by_cases hp : p a <;> by_cases hq : q a <;>
      simp [List.countP_cons, hp, hq] <;> omega

theorem phonState_fields (spell target levels : List String) :
    (phonState spell target levels).t1
        = List.countP (fun i => phonLevel levels i == 1)
            (List.range (min target.length spell.length))
      ∧ (phonState spell target levels).t2
        = List.countP (fun i => phonLevel levels i == 2)
            (List.range (min target.length spell.length))
      ∧ (phonState spell target levels).t3
        = List.countP (fun i => phonLevel levels i == 3)
            (List.range (min target.length spell.length))
      ∧ (phonState spell target levels).c1
        = List.countP (fun i => phonLevel levels i == 1 && phonMatch spell target i)
            (List.range (min target.length spell.length))
      ∧ (phonState spell target levels).c2
        = List.countP (fun i => phonLevel levels i == 2 && phonMatch spell target i)
            (List.range (min target.length spell.length))
      ∧ (phonState spell target levels).c3
        = List.countP (fun i => phonLevel levels i == 3 && phonMatch spell target i)
            (List.range (min target.length spell.length)) := by
  have hf := phonFold spell target levels
    (List.range (min target.length spell.length)) ⟨0, 0, 0, 0, 0, 0⟩
  simpa [phonState] using hf

theorem phonetics_total_eq (spell target levels : List String) :
    (evaluate_phonetics spell target levels).total = min target.length spell.length := rfl

theorem phonetics_score_state (spell target levels : List String) :
    (evaluate_phonetics spell target levels).score
      = (phonState spell target levels).c1 + (phonState spell target levels).c2
          + (phonState spell target levels).c3 := rfl

theorem phonetics_lb_state (spell target levels : List String) :
    (evaluate_phonetics spell target levels).level_breakdown
      = { level1 := { correct := (phonState spell target levels).c1
                      total := (phonState spell target levels).t1 }
          level2 := { correct := (phonState spell target levels).c2
                      total := (phonState spell target levels).t2 }
          level3 := { correct := (phonState spell target levels).c3
                      total := (phonState spell target levels).t3 } } := rfl

theorem phonetics_score_eq (spell target levels : List String) :
    (evaluate_phonetics spell target levels).score
      = List.countP (fun i => phonMatch spell target i)
          (List.range (min target.length spell.length)) := by
  rw [phonetics_score_state]
  obtain ⟨-, -, -, h4, h5, h6⟩ := phonState_fields spell target levels
  rw [h4, h5, h6, phonCountMatch]

theorem phonetics_flag_eq (spell target levels : List String) :
    (evaluate_phonetics spell target levels).flag
      = decide ((evaluate_phonetics spell target levels).score
          < min target.length spell.length / 2) := by
  simp only [evaluate_phonetics]
  rw [halfIte]


/-! ### The claims -/

/-- C1: `_edits_leq_one`, after trimming and lowercasing both arguments,
returns true on ('cat','cat'), ('cat','cats'), ('','a'), ('',''), false on
('cat','dog') and ('ab','ba'); in general it returns true when the normalized
strings are equal, false when their lengths differ by more than 1, and
otherwise decides via the single greedy two-pointer scan `edLoop`, with one
substitution allowed on equal lengths, one insertion/deletion otherwise, and
a trailing unconsumed character counting as one more edit. -/
theorem edits_leq_one_spec :
    _edits_leq_one "cat" "cat" = true ∧
    _edits_leq_one "cat" "cats" = true ∧
    _edits_leq_one "" "a" = true ∧
    _edits_leq_one "" "" = true ∧
    _edits_leq_one "cat" "dog" = false ∧
    _edits_leq_one "ab" "ba" = false ∧
    (∀ a b : String, pyNorm a = pyNorm b → _edits_leq_one a b = true) ∧
    (∀ a b : String,
      (pyNorm a).length + 1 < (pyNorm b).length ∨ (pyNorm b).length + 1 < (pyNorm a).length →
      _edits_leq_one a b = false) ∧
    (∀ a b : String, pyNorm a ≠ pyNorm b →
      ¬((pyNorm a).length + 1 < (pyNorm b).length ∨ (pyNorm b).length + 1 < (pyNorm a).length) →
      _edits_leq_one a b
        = edLoop (decide ((pyNorm a).length = (pyNorm b).length))
            (decide ((pyNorm b).length < (pyNorm a).length)) 0 (pyNorm a) (pyNorm b)) := by
  refine ⟨by decide, by decide, by decide, by decide, by decide, by decide, ?_, ?_, ?_⟩
  · intro a b h
    unfold _edits_leq_one editsCore
    rw [if_pos h]
  · intro a b h
    have hne : pyNorm a ≠ pyNorm b := by
      intro he
      rw [he] at h
      omega
    unfold _edits_leq_one editsCore
    rw [if_neg hne, if_pos h]
  · intro a b hne hlen
    unfold _edits_leq_one editsCore
    rw [if_neg hne, if_neg hlen]

/-- C1 witness: the general clauses of `edits_leq_one_spec` applied at
concrete inputs. -/
theorem edits_leq_one_spec_witness :
    _edits_leq_one " CAT " "cat" = true ∧ _edits_leq_one "ab" "abcd" = false :=
  ⟨edits_leq_one_spec.2.2.2.2.2.2.1 " CAT " "cat" (by decide),
   edits_leq_one_spec.2.2.2.2.2.2.2.1 "ab" "abcd" (by decide)⟩

/-- C2 counterexample: there is NO pair of strings on which the greedy
two-pointer comparator differs from "Levenshtein distance of the normalized
strings is at most 1" — the claimed divergence does not exist. -/
theorem greedy_dp_divergence_counterexample :
    ¬ ∃ a b : String, _edits_leq_one a b ≠ decide (lev (pyNorm a) (pyNorm b) ≤ 1) := by
  rintro ⟨a, b, h⟩
  exact h (edits_leq_one_eq_levLeOne a b)

/-- C2 amended: the greedy comparator agrees with textbook DP
Levenshtein-distance-≤1 on every pair of inputs; in particular the suggested
pathological pair 'aab' vs 'aba' (distance 2) is rejected by both sides. -/
theorem greedy_eq_dp_levenshtein :
    (∀ a b : String, _edits_leq_one a b = decide (lev (pyNorm a) (pyNorm b) ≤ 1)) ∧
    _edits_leq_one "aab" "aba" = false ∧
    lev (pyNorm "aab") (pyNorm "aba") = 2 :=
  ⟨edits_leq_one_eq_levLeOne, by decide, by decide⟩

/-- C3: for every evaluator and every list-of-strings input, the returned
score satisfies `0 ≤ score ≤ total` (`total` = 5 for dyslexia, `len targets`
for dyscalculia, the `total` field for memory/phonetics, 5 for legacy MCQ),
and equals the exact count of positions satisfying the variant's match
predicate. -/
theorem score_bounds_and_counts :
    (∀ answers : List String,
      0 ≤ (evaluate_dyslexia answers).score ∧
      (evaluate_dyslexia answers).score
        = List.countP (fun p => p.1 == p.2) (answers.zip ["b", "b", "a", "a", "b"]) ∧
      (evaluate_dyslexia answers).score ≤ 5) ∧
    (∀ answers targets : List String,
      0 ≤ (evaluate_dyscalculia answers targets).score ∧
      (evaluate_dyscalculia answers targets).score
        = List.countP (fun i => decide (pyNorm (answers.getD i "") = pyNorm (targets.getD i "")))
            (List.range targets.length) ∧
      (evaluate_dyscalculia answers targets).score ≤ targets.length) ∧
    (∀ recall_list target : List String,
      0 ≤ (evaluate_memory recall_list target).score ∧
      (evaluate_memory recall_list target).score
        = List.countP (fun idx => _edits_leq_one (recall_list.getD idx "") (target.getD idx ""))
            (List.range target.length) ∧
      (evaluate_memory recall_list target).score ≤ (evaluate_memory recall_list target).total) ∧
    (∀ spell target levels : List String,
      0 ≤ (evaluate_phonetics spell target levels).score ∧
      (evaluate_phonetics spell target levels).score
        = List.countP (fun i => phonMatch spell target i)
            (List.range (min target.length spell.length)) ∧
      (evaluate_phonetics spell target levels).score
        ≤ (evaluate_phonetics spell target levels).total) ∧
    (∀ answers : List String,
      0 ≤ (evaluate_phonetics_legacy_mcq answers).score ∧
      (evaluate_phonetics_legacy_mcq answers).score
        = List.countP (fun p => pyNorm p.1 == p.2.data)
            (answers.zip ["c", "b", "a", "a", "b"]) ∧
      (evaluate_phonetics_legacy_mcq answers).score
        ≤ (evaluate_phonetics_legacy_mcq answers).total) := by
  refine ⟨fun answers => ⟨Nat.zero_le _, dyslexia_score_eq answers, ?_⟩,
    fun answers targets => ⟨Nat.zero_le _, dyscalculia_score_eq answers targets, ?_⟩,
    fun recall_list target => ⟨Nat.zero_le _, memory_score_eq recall_list target, ?_⟩,
    fun spell target levels => ⟨Nat.zero_le _, phonetics_score_eq spell target levels, ?_⟩,
    fun answers => ⟨Nat.zero_le _, legacy_score_eq answers, ?_⟩⟩
  · rw [dyslexia_score_eq]
    refine le_trans (List.countP_le_length _) ?_
    rw [List.length_zip]
    simp
  · rw [dyscalculia_score_eq]
    refine le_trans (List.countP_le_length _) ?_
    rw [List.length_range]
  · rw [memory_score_eq, memory_total_eq]
    refine le_trans (List.countP_le_length _) ?_
    rw [List.length_range]
  · rw [phonetics_score_eq, phonetics_total_eq]
    refine le_trans (List.countP_le_length _) ?_
    rw [List.length_range]
  · rw [legacy_score_eq, legacy_total_eq]
    refine le_trans (List.countP_le_length _) ?_
    rw [List.length_zip]
    simp

/-- C4 counterexample: `evaluate_dyslexia` is NOT insensitive to
whitespace/case — the answer `' B '` does not match the key `'b'` at
position 0, while the exact answer `'b'` does. -/
theorem dyslexia_not_normalized :
    (evaluate_dyslexia [" B "]).score = 0 ∧ (evaluate_dyslexia ["b"]).score = 1 :=
  ⟨by decide, by decide⟩

/-- C4 amended: matching is insensitive to leading/trailing whitespace and
case in `evaluate_dyscalculia`, `evaluate_phonetics` and
`evaluate_phonetics_legacy_mcq` (`' Cat '` matches `'cat'`), but
`evaluate_dyslexia` compares answers to its key by exact, case-sensitive
string equality as stored. -/
theorem normalization_three_evaluators :
    (evaluate_dyscalculia [" Cat "] ["cat"]).score = 1 ∧
    (evaluate_phonetics [" Cat "] ["cat"] []).score = 1 ∧
    (evaluate_phonetics_legacy_mcq [" C "]).score = 1 ∧
    (∀ answers : List String,
      (evaluate_dyslexia answers).score
        = List.countP (fun p => p.1 == p.2) (answers.zip ["b", "b", "a", "a", "b"])) :=
  ⟨by decide, by decide, by decide, dyslexia_score_eq⟩

/-- C5: `evaluate_dyscalculia` scores the count of indices `i < len targets`
whose answer (empty when out of range), trimmed and lowercased, equals the
trimmed lowercased target; `flag` is true exactly when `score < 3` regardless
of `len targets`; on (['cat','dog'], ['cat','dog']) it yields score 2 and
flag true. -/
theorem dyscalculia_spec :
    (∀ answers targets : List String,
      (evaluate_dyscalculia answers targets).score
        = List.countP (fun i => decide (pyNorm (answers.getD i "") = pyNorm (targets.getD i "")))
            (List.range targets.length)) ∧
    (∀ answers targets : List String,
      (evaluate_dyscalculia answers targets).flag
        = decide ((evaluate_dyscalculia answers targets).score < 3)) ∧
    (evaluate_dyscalculia ["cat", "dog"] ["cat", "dog"]).score = 2 ∧
    (evaluate_dyscalculia ["cat", "dog"] ["cat", "dog"]).flag = true :=
  ⟨dyscalculia_score_eq, dyscalculia_flag_eq, by decide, by decide⟩

/-- C6: `evaluate_memory` returns `total = len target_list`, `score` = the
count of indices whose recall is within one edit of the target
(`_edits_leq_one`, empty string when out of range), and `flag` true exactly
when `score < total / 2`; hence `flag` is always false when `total = 0`, and
(['kat'], ['cat']) yields score 1, total 1, flag false. -/
theorem memory_spec :
    (∀ recall_list target : List String,
      (evaluate_memory recall_list target).total = target.length) ∧
    (∀ recall_list target : List String,
      (evaluate_memory recall_list target).score
        = List.countP (fun idx => _edits_leq_one (recall_list.getD idx "") (target.getD idx ""))
            (List.range target.length)) ∧
    (∀ recall_list target : List String,
      (evaluate_memory recall_list target).flag
        = decide ((evaluate_memory recall_list target).score < target.length / 2)) ∧
    (∀ recall_list target : List String, target.length = 0 →
      (evaluate_memory recall_list target).flag = false) ∧
    (evaluate_memory ["kat"] ["cat"]).score = 1 ∧
    (evaluate_memory ["kat"] ["cat"]).total = 1 ∧
    (evaluate_memory ["kat"] ["cat"]).flag = false := by
  refine ⟨memory_total_eq, memory_score_eq, memory_flag_eq, ?_, by decide, by decide, by decide⟩
  intro recall_list target h
  rw [memory_flag_eq, h]
  simp

/-- C6 witness: the `total = 0` clause of `memory_spec` at a concrete
input. -/
theorem memory_spec_witness : (evaluate_memory ["x"] []).flag = false :=
  memory_spec.2.2.2.1 ["x"] [] rfl

/-- C7: `evaluate_phonetics` grades `n = min (len target) (len spell)` items;
each item's tier comes from `level_list[i]` coerced to an integer with
default 1 when missing/unparsable/outside {1,2,3}; the breakdown counts per
tier the graded and the matching items (trimmed, lowercased comparison), the
score counts all matching items, and `flag = (score < n / 2)`; the spec's
example evaluates as stated. -/
theorem phonetics_spec :
    (∀ spell target levels : List String,
      (evaluate_phonetics spell target levels).total = min target.length spell.length) ∧
    (∀ spell target levels : List String,
      (evaluate_phonetics spell target levels).score
        = List.countP (fun i => phonMatch spell target i)
            (List.range (min target.length spell.length))) ∧
    (∀ spell target levels : List String,
      (evaluate_phonetics spell target levels).level_breakdown
        = { level1 :=
              { correct := List.countP (fun i => phonLevel levels i == 1 && phonMatch spell target i)
                  (List.range (min target.length spell.length))
                total := List.countP (fun i => phonLevel levels i == 1)
                  (List.range (min target.length spell.length)) }
            level2 :=
              { correct := List.countP (fun i => phonLevel levels i == 2 && phonMatch spell target i)
                  (List.range (min target.length spell.length))
                total := List.countP (fun i => phonLevel levels i == 2)
                  (List.range (min target.length spell.length)) }
            level3 :=
              { correct := List.countP (fun i => phonLevel levels i == 3 && phonMatch spell target i)
                  (List.range (min target.length spell.length))
                total := List.countP (fun i => phonLevel levels i == 3)
                  (List.range (min target.length spell.length)) } }) ∧
    (∀ spell target levels : List String,
      (evaluate_phonetics spell target levels).flag
        = decide ((evaluate_phonetics spell target levels).score
            < min target.length spell.length / 2)) ∧
    (∀ levels : List String, ∀ i : Nat,
      phonLevel levels i =
        if i < levels.length then
          match pyIntOfString (levels.getD i "") with
          | some v => if v = 1 ∨ v = 2 ∨ v = 3 then v.toNat else 1
          | none => 1
        else 1) ∧
    (evaluate_phonetics ["cat", "dog", "sun"] ["cat", "dog", "moon"] ["1", "2", "3"]).score = 2 ∧
    (evaluate_phonetics ["cat", "dog", "sun"] ["cat", "dog", "moon"] ["1", "2", "3"]).total = 3 ∧
    (evaluate_phonetics ["cat", "dog", "sun"] ["cat", "dog", "moon"] ["1", "2", "3"]).flag = false ∧
    (evaluate_phonetics ["cat", "dog", "sun"] ["cat", "dog", "moon"]
        ["1", "2", "3"]).level_breakdown
      = { level1 := { correct := 1, total := 1 }
          level2 := { correct := 1, total := 1 }
          level3 := { correct := 0, total := 1 } } := by
  refine ⟨phonetics_total_eq, phonetics_score_eq, ?_, phonetics_flag_eq, ?_,
    by decide, by decide, by decide, rfl⟩
  · intro spell target levels
    obtain ⟨h1, h2, h3, h4, h5, h6⟩ := phonState_fields spell target levels
    rw [phonetics_lb_state, h1, h2, h3, h4, h5, h6]
  · intro levels i
    simp only [phonLevel]
    by_cases hi : i < levels.length <;> simp only [hi, if_true, if_false]
    · cases hps : pyIntOfString (levels.getD i "") with
      | none => simp
      | some v => simp
    · simp

/-- C8: `evaluate_phonetics_legacy_mcq` scores the count of positions
matching the fixed key [c, b, a, a, b] under trimmed, case-insensitive
comparison (short inputs just fail to match), with `total` fixed at 5,
`flag = (score < 3)`, and one fixed message independent of the answers. -/
theorem legacy_mcq_spec :
    (∀ answers : List String,
      (evaluate_phonetics_legacy_mcq answers).score
        = List.countP (fun p => pyNorm p.1 == p.2.data)
            (answers.zip ["c", "b", "a", "a", "b"])) ∧
    (∀ answers : List String, (evaluate_phonetics_legacy_mcq answers).total = 5) ∧
    (∀ answers : List String,
      (evaluate_phonetics_legacy_mcq answers).flag
        = decide ((evaluate_phonetics_legacy_mcq answers).score < 3)) ∧
    (∀ answers : List String,
      (evaluate_phonetics_legacy_mcq answers).message
        = "Legacy phonetic items scored. For the new phonetic spelling, responses are typed words with increasing complexity across three levels.") :=
  ⟨legacy_score_eq, legacy_total_eq, legacy_flag_eq, legacy_message_eq⟩

/-- C9: the bounded comparator is symmetric: `_edits_leq_one a b` always
equals `_edits_leq_one b a`. -/
theorem edits_leq_one_symm (a b : String) :
    _edits_leq_one a b = _edits_leq_one b a := by
  rw [edits_leq_one_eq_levLeOne, edits_leq_one_eq_levLeOne]
  exact decide_eq_decide.mpr (by rw [lev_comm])

/-- C10: the phonetics `level_breakdown` is consistent with the top-level
fields: tier totals sum to `total`, tier corrects sum to `score`, and in each
tier `correct ≤ total`. -/
theorem phonetics_breakdown_consistent (spell target levels : List String) :
    (evaluate_phonetics spell target levels).level_breakdown.level1.total
        + (evaluate_phonetics spell target levels).level_breakdown.level2.total
        + (evaluate_phonetics spell target levels).level_breakdown.level3.total
      = (evaluate_phonetics spell target levels).total
    ∧ (evaluate_phonetics spell target levels).level_breakdown.level1.correct
        + (evaluate_phonetics spell target levels).level_breakdown.level2.correct
        + (evaluate_phonetics spell target levels).level_breakdown.level3.correct
      = (evaluate_phonetics spell target levels).score
    ∧ (evaluate_phonetics spell target levels).level_breakdown.level1.correct
      ≤ (evaluate_phonetics spell target levels).level_breakdown.level1.total
    ∧ (evaluate_phonetics spell target levels).level_breakdown.level2.correct
      ≤ (evaluate_phonetics spell target levels).level_breakdown.level2.total
    ∧ (evaluate_phonetics spell target levels).level_breakdown.level3.correct
      ≤ (evaluate_phonetics spell target levels).level_breakdown.level3.total := by
  obtain ⟨h1, h2, h3, h4, h5, h6⟩ := phonState_fields spell target levels
  simp only [phonetics_lb_state, phonetics_total_eq, phonetics_score_state]
  refine ⟨?_, trivial, ?_, ?_, ?_⟩
  · rw [h1, h2, h3, phonCountLevels, List.length_range]
  · rw [h4, h1]
    exact countP_and_le _ _ _
  · rw [h5, h2]
    exact countP_and_le _ _ _
  · rw [h6, h3]
    exact countP_and_le _ _ _
